import Mathlib

/-!
Verification of the AXS15231B panel driver (espsquare.ino, direct ESP-IDF SPI
variant).  The driver is embedded shallowly: each C function that talks to the
bus is modelled as a pure Lean function returning the list of bus events
(chip-select edges and SPI transactions) it dispatches, in order.  Machine
integers are modelled as `Nat` with explicit `% 2^w` where the C code performs
a narrowing cast.
-/

/-- SpiTxn models one `spi_transaction_t` as configured by the driver:
an 8-bit opcode (`cmd`), a 24-bit address field (`addr`), the bytes the
transaction transmits (`payload`, the prefix of the staging buffer covered by
`t.length`), and whether the data phase runs in four-line (QIO) mode. -/
structure SpiTxn where
  cmd : Nat
  addr : Nat
  payload : List Nat
  qio : Bool
deriving Repr, DecidableEq

/-- BusEvent is one observable action on the SPI bus: a chip-select edge or a
polling transmit of one transaction. -/
inductive BusEvent where
  | csLow : BusEvent
  | csHigh : BusEvent
  | transmit : SpiTxn → BusEvent
deriving Repr, DecidableEq

/-- transmits extracts, in order, the transactions carried by a bus-event
trace. -/
def transmits (es : List BusEvent) : List SpiTxn :=
  es.filterMap fun e =>
    match e with
    | BusEvent.transmit t => some t
    | _ => none

/-- pixelTxns keeps only the four-line-mode (pixel) transactions of a trace;
command-channel transactions run with `qio = false` and are dropped. -/
def pixelTxns (es : List BusEvent) : List SpiTxn :=
  (transmits es).filter fun t => t.qio

/-- payloadBytes concatenates, in dispatch order, the payloads of all
transactions of a trace. -/
def payloadBytes (es : List BusEvent) : List Nat :=
  ((transmits es).map fun t => t.payload).flatten

/-- pixelBytes concatenates, in dispatch order, the payloads of the pixel
(four-line-mode) transactions of a trace. -/
def pixelBytes (es : List BusEvent) : List Nat :=
  ((pixelTxns es).map fun t => t.payload).flatten

/-- lcdCmdBufSize is `sizeof(lcd_cmd_buf)`: the 32-byte DMA-safe command
staging buffer (espsquare.ino line 60). -/
def lcdCmdBufSize : Nat := 32

/-- lcd_cmd models `lcd_cmd(reg, data, len)` (espsquare.ino lines 67-82): one
single-line transaction with opcode 0x02 and address `reg << 8`, framed by one
chip-select assertion before the transmit and one deassertion after it.  When
`len > 0` and `data` is non-null (modelled as a non-empty list) the first
`min(len, 32)` bytes of `data` are copied into the staging buffer and
transmitted; otherwise the transaction carries no data phase. -/
def lcd_cmd (reg : Nat) (data : List Nat) (len : Nat) : List BusEvent :=
  [BusEvent.csLow,
   BusEvent.transmit
     { cmd := 0x02
     , addr := reg % 256 * 256
     , payload :=
         if 0 < len ∧ data ≠ [] then
           data.take (if len > lcdCmdBufSize then lcdCmdBufSize else len)
         else []
     , qio := false }
   , BusEvent.csHigh]

/-- lcd_window models `lcd_window(x1, y1, x2, y2)` (espsquare.ino lines
116-122): a CASET (0x2A) command with the big-endian column bounds followed by
a RASET (0x2B) command with the big-endian row bounds.  Arguments are uint16,
hence the `% 65536` at entry; each byte is a uint8 narrowing cast. -/
def lcd_window (x1 y1 x2 y2 : Nat) : List BusEvent :=
  lcd_cmd 0x2A
    [x1 % 65536 / 256, x1 % 256, x2 % 65536 / 256, x2 % 256] 4 ++
  lcd_cmd 0x2B
    [y1 % 65536 / 256, y1 % 256, y2 % 65536 / 256, y2 % 256] 4

/-- lcdPxBufSize is `sizeof(lcd_px_buf)`: the 960-byte pixel staging buffer
(one 480-pixel row of big-endian RGB565, espsquare.ino line 57). -/
def lcdPxBufSize : Nat := 480 * 2

/-- pushChunks models the chunking loop of `lcd_push_be` (espsquare.ino lines
91-113) with the staging-buffer capacity `cap` as a parameter (the source
instantiates it at 960; `writePixelsRaw` runs the same loop at 8192).  Each
iteration copies `min(bytes, cap)` bytes into the staging buffer and
dispatches one complete CS-framed QIO transaction, opcode 0x32, with address
0x002C00 (RAMWR) for the first chunk and 0x003C00 (RAMWRC) afterwards.  The
guard also requires `0 < cap` so that the recursion is well founded; both
source instantiations have positive capacity. -/
def pushChunks (cap : Nat) (first : Bool) (data : List Nat) (bytes : Nat) :
    List BusEvent :=
  if h : 0 < bytes ∧ 0 < cap then
    BusEvent.csLow ::
    BusEvent.transmit
      { cmd := 0x32
      , addr := if first then 0x002C00 else 0x003C00
      , payload := data.take (if bytes > cap then cap else bytes)
      , qio := true } ::
    BusEvent.csHigh ::
    pushChunks cap false (data.drop (if bytes > cap then cap else bytes))
      (bytes - (if bytes > cap then cap else bytes))
  else []
termination_by bytes
decreasing_by
  obtain ⟨hb, hc⟩ := h
  split <;> omega

/-- lcd_push_be models `lcd_push_be(data, bytes)` (espsquare.ino lines
91-113): the chunking loop started with `first = true` over the 960-byte
staging buffer. -/
def lcd_push_be (data : List Nat) (bytes : Nat) : List BusEvent :=
  pushChunks lcdPxBufSize true data bytes

theorem pushChunks_nil (cap : Nat) (first : Bool) (data : List Nat) :
    pushChunks cap first data 0 = [] := by
  rw [pushChunks]
  simp

theorem pixelTxns_append (a b : List BusEvent) :
    pixelTxns (a ++ b) = pixelTxns a ++ pixelTxns b := by
  simp [pixelTxns, transmits, List.filterMap_append, List.filter_append]

theorem pixelTxns_lcd_cmd (reg : Nat) (data : List Nat) (len : Nat) :
    pixelTxns (lcd_cmd reg data len) = [] := by
  simp [pixelTxns, transmits, lcd_cmd]

theorem pixelTxns_lcd_window (x1 y1 x2 y2 : Nat) :
    pixelTxns (lcd_window x1 y1 x2 y2) = [] := by
  simp [lcd_window, pixelTxns_append, pixelTxns_lcd_cmd]

theorem transmits_frame (t : SpiTxn) (rest : List BusEvent) :
    transmits (BusEvent.csLow :: BusEvent.transmit t :: BusEvent.csHigh :: rest)
      = t :: transmits rest := by
  simp [transmits]

theorem payloadBytes_frame (t : SpiTxn) (rest : List BusEvent) :
    payloadBytes (BusEvent.csLow :: BusEvent.transmit t :: BusEvent.csHigh :: rest)
      = t.payload ++ payloadBytes rest := by
  simp [payloadBytes, transmits]

theorem pushChunks_mem (cap : Nat) : ∀ bytes first data t,
    t ∈ transmits (pushChunks cap first data bytes) →
    t.qio = true ∧ t.cmd = 0x32 ∧
    (t.addr = 0x002C00 ∨ t.addr = 0x003C00) ∧
    (first = false → t.addr = 0x003C00) := by
  intro bytes
  induction bytes using Nat.strong_induction_on with
  | _ bytes ih =>
    intro first data t ht
    rw [pushChunks] at ht
    split at ht
    case isTrue h =>
      rw [transmits_frame] at ht
      rcases List.mem_cons.mp ht with rfl | hrec
      · refine ⟨rfl, rfl, ?_, ?_⟩
        · cases first <;> simp
        · intro hf; subst hf; simp
      · have hdec : bytes - (if bytes > cap then cap else bytes) < bytes := by
          obtain ⟨hb, hc⟩ := h
          split <;> omega
        have := ih _ hdec false _ t hrec
        exact ⟨this.1, this.2.1, this.2.2.1, fun _ => this.2.2.2 rfl⟩
    case isFalse h =>
      simp [transmits] at ht

theorem pixelTxns_pushChunks (cap : Nat) (first : Bool) (data : List Nat)
    (bytes : Nat) :
    pixelTxns (pushChunks cap first data bytes)
      = transmits (pushChunks cap first data bytes) := by
  refine List.filter_eq_self.mpr ?_
  intro t ht
  exact (pushChunks_mem cap bytes first data t ht).1

theorem pushChunks_true_markers (cap : Nat) (data : List Nat) (bytes : Nat)
    (hb : 0 < bytes) (hc : 0 < cap) :
    ∃ rest,
      (transmits (pushChunks cap true data bytes)).map SpiTxn.addr
        = 0x002C00 :: rest ∧ ∀ a ∈ rest, a = 0x003C00 := by
  rw [pushChunks, dif_pos ⟨hb, hc⟩, transmits_frame]
  refine ⟨_, rfl, ?_⟩
  intro a ha
  rw [List.mem_map] at ha
  obtain ⟨t, ht, rfl⟩ := ha
  exact (pushChunks_mem cap _ false _ t ht).2.2.2 rfl

theorem pushChunks_payload (cap : Nat) (hcap : 0 < cap) : ∀ bytes first data,
    bytes ≤ data.length →
    payloadBytes (pushChunks cap first data bytes) = data.take bytes := by
  intro bytes
  induction bytes using Nat.strong_induction_on with
  | _ bytes ih =>
    intro first data hle
    by_cases hb : 0 < bytes
    · rw [pushChunks, dif_pos ⟨hb, hcap⟩, payloadBytes_frame]
      have hchunk1 : 0 < (if bytes > cap then cap else bytes) := by
        split <;> omega
      have hchunk2 : (if bytes > cap then cap else bytes) ≤ bytes := by
        split <;> omega
      have hdec : bytes - (if bytes > cap then cap else bytes) < bytes := by
        omega
      have hrec := ih _ hdec false (data.drop (if bytes > cap then cap else bytes))
        (by rw [List.length_drop]; omega)
      rw [hrec, ← List.take_add]
      congr 1
      omega
    · have h0 : bytes = 0 := by omega
      subst h0
      rw [pushChunks_nil]
      simp [payloadBytes, transmits]

/-- C1: for every window with `0 ≤ x1 ≤ x2 < 480` and `0 ≤ y1 ≤ y2 < 320`,
`lcd_window` followed by one `lcd_push_be` of exactly
`(x2-x1+1)*(y2-y1+1)*2` bytes dispatches exactly one transaction carrying the
start marker (address 0x002C00, RAMWR), as the first pixel transaction,
followed only by transactions carrying the continuation marker (address
0x003C00, RAMWRC); the start marker occurs exactly once in the session. -/
theorem window_stream_single_start (x1 y1 x2 y2 : Nat) (data : List Nat)
    (hx12 : x1 ≤ x2) (hx2 : x2 < 480) (hy12 : y1 ≤ y2) (hy2 : y2 < 320) :
    ∃ rest,
      (pixelTxns (lcd_window x1 y1 x2 y2 ++
          lcd_push_be data ((x2 - x1 + 1) * (y2 - y1 + 1) * 2))).map SpiTxn.addr
        = 0x002C00 :: rest
      ∧ (∀ a ∈ rest, a = 0x003C00)
      ∧ (0x002C00 :: rest).count 0x002C00 = 1 := by
  rw [pixelTxns_append, pixelTxns_lcd_window, List.nil_append]
  rw [lcd_push_be, pixelTxns_pushChunks]
  have hb : 0 < (x2 - x1 + 1) * (y2 - y1 + 1) * 2 := by positivity
  obtain ⟨rest, hrest, hall⟩ :=
    pushChunks_true_markers lcdPxBufSize data _ hb (by norm_num [lcdPxBufSize])
  refine ⟨rest, hrest, hall, ?_⟩
  rw [List.count_cons_self, List.count_eq_zero.mpr, Nat.zero_add]
  intro hmem
  have := hall _ hmem
  norm_num at this

theorem window_stream_single_start_w :
    (0:Nat) ≤ 1 ∧ (1:Nat) < 480 ∧ (0:Nat) ≤ 0 ∧ (0:Nat) < 320 ∧
    ∃ rest,
      (pixelTxns (lcd_window 0 0 1 0 ++
          lcd_push_be [] ((1 - 0 + 1) * (0 - 0 + 1) * 2))).map SpiTxn.addr
        = 0x002C00 :: rest
      ∧ (∀ a ∈ rest, a = 0x003C00)
      ∧ (0x002C00 :: rest).count 0x002C00 = 1 :=
  ⟨by decide, by decide, by decide, by decide,
    window_stream_single_start 0 0 1 0 []
      (by decide) (by decide) (by decide) (by decide)⟩

/-- C2: for every input byte sequence, every byte length not exceeding the
bytes available at the source pointer, and every positive staging-buffer
capacity, concatenating the payloads of all chunks dispatched by one
streaming call reproduces the caller's byte sequence exactly, in dispatch
order; in particular this holds for `lcd_push_be` with its 960-byte buffer. -/
theorem stream_concat_payload (cap : Nat) (data : List Nat) (bytes : Nat)
    (hcap : 0 < cap) (hlen : bytes ≤ data.length) :
    payloadBytes (pushChunks cap true data bytes) = data.take bytes
    ∧ payloadBytes (lcd_push_be data bytes) = data.take bytes :=
  ⟨pushChunks_payload cap hcap bytes true data hlen,
   pushChunks_payload lcdPxBufSize (by norm_num [lcdPxBufSize]) bytes true data hlen⟩

theorem stream_concat_payload_w :
    (0:Nat) < 2 ∧ (3:Nat) ≤ ([1, 2, 3] : List Nat).length ∧
    payloadBytes (pushChunks 2 true [1, 2, 3] 3) = [1, 2, 3] ∧
    payloadBytes (lcd_push_be [1, 2, 3] 3) = [1, 2, 3] := by
  have h := stream_concat_payload 2 [1, 2, 3] 3 (by decide) (by decide)
  exact ⟨by decide, by decide, h.1.trans (by decide), h.2.trans (by decide)⟩

/-- C5: `lcd_push_be` with a byte length of zero dispatches nothing at all:
no transaction is transmitted and no chip-select edge is produced. -/
theorem stream_zero_no_transaction (data : List Nat) :
    lcd_push_be data 0 = [] :=
  pushChunks_nil lcdPxBufSize true data

/-- pxPattern hi lo n is the byte image of `n` pixels of one colour in
big-endian RGB565: the two bytes `hi, lo` repeated `n` times.  It models the
result of the staging-buffer pre-fill loop of `lcd_fill` (espsquare.ino lines
128-131) when instantiated at `n = 480`. -/
def pxPattern (hi lo : Nat) : Nat → List Nat
  | 0 => []
  | n + 1 => hi :: lo :: pxPattern hi lo n

/-- fillChunks models the streaming loop of `lcd_fill` (espsquare.ino lines
133-151): `remaining` counts pixels still to send, each iteration dispatches
one CS-framed QIO transaction of `min(remaining, capPx)` pixels taken from the
pre-filled staging buffer `buf`, with the start marker 0x002C00 on the first
chunk and the continuation marker 0x003C00 afterwards.  The source
instantiates `capPx` at 480 (`sizeof(lcd_px_buf)/2`); the guard requires
`0 < capPx` for well-founded recursion. -/
def fillChunks (capPx : Nat) (buf : List Nat) (first : Bool)
    (remaining : Nat) : List BusEvent :=
  if h : 0 < remaining ∧ 0 < capPx then
    BusEvent.csLow ::
    BusEvent.transmit
      { cmd := 0x32
      , addr := if first then 0x002C00 else 0x003C00
      , payload := buf.take ((if remaining > capPx then capPx else remaining) * 2)
      , qio := true } ::
    BusEvent.csHigh ::
    fillChunks capPx buf false
      (remaining - (if remaining > capPx then capPx else remaining))
  else []
termination_by remaining
decreasing_by
  obtain ⟨hr, hc⟩ := h
  split <;> omega

/-- lcd_fill models `lcd_fill(color)` (espsquare.ino lines 125-152): the
staging buffer is pre-filled with 480 copies of the colour's two big-endian
bytes, the window is set to the full 480x320 screen, and 480*320 pixels are
streamed with the start/continuation marker rule.  `color` is uint16, hence
the `% 65536`. -/
def lcd_fill (color : Nat) : List BusEvent :=
  lcd_window 0 0 (480 - 1) (320 - 1) ++
  fillChunks 480 (pxPattern (color % 65536 / 256) (color % 256) 480) true
    (480 * 320)

theorem pxPattern_length (hi lo : Nat) : ∀ n, (pxPattern hi lo n).length = 2 * n := by
  intro n
  induction n with
  | zero => rfl
  | succ n ih => simp [pxPattern, ih]; omega

theorem pxPattern_take (hi lo : Nat) : ∀ m n, m ≤ n →
    (pxPattern hi lo n).take (2 * m) = pxPattern hi lo m := by
  intro m
  induction m with
  | zero => intro n _; simp [pxPattern]
  | succ m ih =>
    intro n hmn
    cases n with
    | zero => omega
    | succ n =>
      have h2 : 2 * (m + 1) = 2 * m + 1 + 1 := by omega
      rw [h2]
      simp only [pxPattern, List.take_succ_cons]
      rw [ih n (by omega)]

theorem pxPattern_append (hi lo : Nat) : ∀ m n,
    pxPattern hi lo (m + n) = pxPattern hi lo m ++ pxPattern hi lo n := by
  intro m
  induction m with
  | zero => intro n; simp [pxPattern]
  | succ m ih =>
    intro n
    rw [Nat.succ_add]
    simp only [pxPattern, List.cons_append]
    rw [ih n]

theorem fillChunks_nil (capPx : Nat) (buf : List Nat) (first : Bool) :
    fillChunks capPx buf first 0 = [] := by
  rw [fillChunks]
  simp

theorem fillChunks_mem (capPx : Nat) (buf : List Nat) : ∀ remaining first t,
    t ∈ transmits (fillChunks capPx buf first remaining) →
    t.qio = true ∧ t.cmd = 0x32 ∧
    (t.addr = 0x002C00 ∨ t.addr = 0x003C00) ∧
    (first = false → t.addr = 0x003C00) := by
  intro remaining
  induction remaining using Nat.strong_induction_on with
  | _ remaining ih =>
    intro first t ht
    rw [fillChunks] at ht
    split at ht
    case isTrue h =>
      rw [transmits_frame] at ht
      rcases List.mem_cons.mp ht with rfl | hrec
      · refine ⟨rfl, rfl, ?_, ?_⟩
        · cases first <;> simp
        · intro hf; subst hf; simp
      · have hdec : remaining - (if remaining > capPx then capPx else remaining)
            < remaining := by
          obtain ⟨hr, hc⟩ := h
          split <;> omega
        have := ih _ hdec false t hrec
        exact ⟨this.1, this.2.1, this.2.2.1, fun _ => this.2.2.2 rfl⟩
    case isFalse h =>
      simp [transmits] at ht

theorem pixelTxns_fillChunks (capPx : Nat) (buf : List Nat) (first : Bool)
    (remaining : Nat) :
    pixelTxns (fillChunks capPx buf first remaining)
      = transmits (fillChunks capPx buf first remaining) := by
  refine List.filter_eq_self.mpr ?_
  intro t ht
  exact (fillChunks_mem capPx buf remaining first t ht).1

theorem fillChunks_count (capPx : Nat) (hc : 0 < capPx) (buf : List Nat) :
    ∀ remaining first,
      (transmits (fillChunks capPx buf first remaining)).length
        = (remaining + capPx - 1) / capPx := by
  intro remaining
  induction remaining using Nat.strong_induction_on with
  | _ remaining ih =>
    intro first
    by_cases hr : 0 < remaining
    · rw [fillChunks, dif_pos ⟨hr, hc⟩, transmits_frame, List.length_cons]
      have hchunk2 : (if remaining > capPx then capPx else remaining) ≤ remaining := by
        split <;> omega
      have hchunk1 : 0 < (if remaining > capPx then capPx else remaining) := by
        split <;> omega
      rw [ih _ (by omega) false]
      by_cases hbig : remaining > capPx
      · rw [if_pos hbig]
        have h1 : remaining - capPx + capPx - 1 = remaining - 1 := by omega
        have h2 : remaining + capPx - 1 = remaining - 1 + capPx := by omega
        rw [h1, h2, Nat.add_div_right _ hc]
      · rw [if_neg hbig]
        have h1 : remaining - remaining = 0 := by omega
        have h2 : remaining + capPx - 1 = remaining - 1 + capPx := by omega
        rw [h1, h2, Nat.add_div_right _ hc]
        rw [Nat.div_eq_of_lt (by omega), Nat.div_eq_of_lt (by omega)]
    · have h0 : remaining = 0 := by omega
      subst h0
      rw [fillChunks_nil]
      simp [transmits]
      rw [Nat.div_eq_of_lt (by omega)]

theorem fillChunks_content (capPx : Nat) (hc : 0 < capPx) (hi lo : Nat) :
    ∀ remaining first,
      payloadBytes (fillChunks capPx (pxPattern hi lo capPx) first remaining)
        = pxPattern hi lo remaining := by
  intro remaining
  induction remaining using Nat.strong_induction_on with
  | _ remaining ih =>
    intro first
    by_cases hr : 0 < remaining
    · rw [fillChunks, dif_pos ⟨hr, hc⟩, payloadBytes_frame]
      have hchunk2 : (if remaining > capPx then capPx else remaining) ≤ remaining := by
        split <;> omega
      have hchunk1 : 0 < (if remaining > capPx then capPx else remaining) := by
        split <;> omega
      have hchunkcap : (if remaining > capPx then capPx else remaining) ≤ capPx := by
        split <;> omega
      rw [ih _ (by omega) false]
      show (pxPattern hi lo capPx).take
          ((if remaining > capPx then capPx else remaining) * 2) ++ _ = _
      rw [Nat.mul_comm, pxPattern_take hi lo _ capPx hchunkcap, ← pxPattern_append]
      congr 1
      omega
    · have h0 : remaining = 0 := by omega
      subst h0
      rw [fillChunks_nil]
      simp [payloadBytes, transmits, pxPattern]

theorem pixelBytes_lcd_fill (color : Nat) :
    pixelBytes (lcd_fill color)
      = payloadBytes (fillChunks 480
          (pxPattern (color % 65536 / 256) (color % 256) 480) true (480 * 320)) := by
  unfold pixelBytes payloadBytes lcd_fill
  rw [pixelTxns_append, pixelTxns_lcd_window, List.nil_append, pixelTxns_fillChunks]

/-- C3: for every colour, `lcd_fill` dispatches exactly
`ceil(480*320*2 / 960) = 320` pixel chunks whose concatenated payloads are
480*320 repetitions of the colour's two big-endian bytes, 307200 bytes in all;
in the scenario `lcd_fill 0xF800` (which sets the window to (0,0,479,319)
itself) the first chunk carries the start marker and a payload beginning
0xF8 0x00 0xF8 0x00, every later chunk carries the continuation marker, and
the chunks total exactly 307200 bytes. -/
theorem fill_chunk_count_and_content (color : Nat) :
    (pixelTxns (lcd_fill color)).length = (480 * 320 * 2 + 960 - 1) / 960
    ∧ pixelBytes (lcd_fill color)
        = pxPattern (color % 65536 / 256) (color % 256) (480 * 320)
    ∧ (pixelBytes (lcd_fill color)).length = 480 * 320 * 2
    ∧ ((pixelTxns (lcd_fill 0xF800)).map SpiTxn.addr).head? = some 0x002C00
    ∧ (∀ a ∈ ((pixelTxns (lcd_fill 0xF800)).map SpiTxn.addr).tail, a = 0x003C00)
    ∧ (pixelBytes (lcd_fill 0xF800)).take 4 = [0xF8, 0x00, 0xF8, 0x00]
    ∧ (pixelBytes (lcd_fill 0xF800)).length = 307200 := by
  have hcount : ∀ c : Nat, (pixelTxns (lcd_fill c)).length = 320 := by
    intro c
    unfold lcd_fill
    rw [pixelTxns_append, pixelTxns_lcd_window, List.nil_append,
      pixelTxns_fillChunks, fillChunks_count 480 (by norm_num) _ _ true]
  have hcontent : ∀ c : Nat, pixelBytes (lcd_fill c)
      = pxPattern (c % 65536 / 256) (c % 256) (480 * 320) := by
    intro c
    rw [pixelBytes_lcd_fill, fillChunks_content 480 (by norm_num)]
  have hlen : ∀ c : Nat, (pixelBytes (lcd_fill c)).length = 307200 := by
    intro c
    rw [hcontent c, pxPattern_length]
  have hmarkers : ∃ rest,
      (pixelTxns (lcd_fill 0xF800)).map SpiTxn.addr = 0x002C00 :: rest
        ∧ ∀ a ∈ rest, a = 0x003C00 := by
    unfold lcd_fill
    rw [pixelTxns_append, pixelTxns_lcd_window, List.nil_append,
      pixelTxns_fillChunks]
    rw [fillChunks, dif_pos (by norm_num : 0 < 480 * 320 ∧ 0 < 480),
      transmits_frame]
    refine ⟨_, rfl, ?_⟩
    intro a ha
    rw [List.mem_map] at ha
    obtain ⟨t, ht, rfl⟩ := ha
    exact (fillChunks_mem 480 _ _ false t ht).2.2.2 rfl
  obtain ⟨rest, hrest, hall⟩ := hmarkers
  refine ⟨(hcount color).trans (by norm_num), hcontent color,
    (hlen color).trans (by norm_num), ?_, ?_, ?_, hlen 0xF800⟩
  · rw [hrest]; rfl
  · rw [hrest]
    exact hall
  · rw [hcontent 0xF800]
    have h4 : (4 : Nat) = 2 * 2 := rfl
    rw [h4, pxPattern_take _ _ 2 (480 * 320) (by norm_num)]
    norm_num [pxPattern]

/-- C6: for every register value (uint8 domain) and every data payload,
`lcd_cmd` issues a single transaction whose opcode is the fixed configuration
opcode 0x02 and whose address field is the register shifted into bits 8..15
(`register << 8`), in single-line mode (`qio = false`), framed by exactly one
chip-select assertion before the transmit and one deassertion after it. -/
theorem cmd_encoding (reg : Nat) (data : List Nat) (len : Nat)
    (hreg : reg < 256) :
    ∃ t : SpiTxn,
      lcd_cmd reg data len
        = [BusEvent.csLow, BusEvent.transmit t, BusEvent.csHigh]
      ∧ t.cmd = 0x02 ∧ t.addr = reg * 256 ∧ t.qio = false := by
  refine ⟨_, rfl, rfl, ?_, rfl⟩
  show reg % 256 * 256 = reg * 256
  rw [Nat.mod_eq_of_lt hreg]

theorem cmd_encoding_w :
    (0x2A : Nat) < 256 ∧
    ∃ t : SpiTxn,
      lcd_cmd 0x2A [1, 2, 3, 4] 4
        = [BusEvent.csLow, BusEvent.transmit t, BusEvent.csHigh]
      ∧ t.cmd = 0x02 ∧ t.addr = 0x2A * 256 ∧ t.qio = false :=
  ⟨by decide, cmd_encoding 0x2A [1, 2, 3, 4] 4 (by decide)⟩

/-- C9: for every window (uint16 domain), each of the two `lcd_window` calls
of a repeated pair produces exactly the CASET payload
`[x1>>8, x1&0xFF, x2>>8, x2&0xFF]` and the RASET payload
`[y1>>8, y1&0xFF, y2>>8, y2&0xFF]`: the addressing bytes are a function of
the arguments only, identical on both calls. -/
theorem window_addressing_pure (x1 y1 x2 y2 : Nat)
    (h1 : x1 < 65536) (h2 : y1 < 65536) (h3 : x2 < 65536) (h4 : y2 < 65536) :
    (transmits (lcd_window x1 y1 x2 y2 ++ lcd_window x1 y1 x2 y2)).map
        (fun t => (t.addr, t.payload))
      = [(0x2A00, [x1 / 256, x1 % 256, x2 / 256, x2 % 256]),
         (0x2B00, [y1 / 256, y1 % 256, y2 / 256, y2 % 256]),
         (0x2A00, [x1 / 256, x1 % 256, x2 / 256, x2 % 256]),
         (0x2B00, [y1 / 256, y1 % 256, y2 / 256, y2 % 256])] := by
  have e1 : x1 % 65536 = x1 := Nat.mod_eq_of_lt h1
  have e2 : y1 % 65536 = y1 := Nat.mod_eq_of_lt h2
  have e3 : x2 % 65536 = x2 := Nat.mod_eq_of_lt h3
  have e4 : y2 % 65536 = y2 := Nat.mod_eq_of_lt h4
  simp [lcd_window, lcd_cmd, transmits, lcdCmdBufSize, e1, e2, e3, e4]

theorem window_addressing_pure_w :
    (1 : Nat) < 65536 ∧ (2 : Nat) < 65536 ∧ (300 : Nat) < 65536 ∧
    (319 : Nat) < 65536 ∧
    (transmits (lcd_window 1 2 300 319 ++ lcd_window 1 2 300 319)).map
        (fun t => (t.addr, t.payload))
      = [(0x2A00, [1 / 256, 1 % 256, 300 / 256, 300 % 256]),
         (0x2B00, [2 / 256, 2 % 256, 319 / 256, 319 % 256]),
         (0x2A00, [1 / 256, 1 % 256, 300 / 256, 300 % 256]),
         (0x2B00, [2 / 256, 2 % 256, 319 / 256, 319 % 256])] :=
  ⟨by decide, by decide, by decide, by decide,
    window_addressing_pure 1 2 300 319
      (by decide) (by decide) (by decide) (by decide)⟩

/-- C10: when `lcd_cmd` is called with non-null data and a length greater
than the 32-byte command staging buffer, it dispatches the usual CS-framed
transaction with no error indication, but the transmitted payload is only the
first 32 data bytes: the payload length is `min(len, 32)`. -/
theorem cmd_overlong_truncated (reg : Nat) (data : List Nat) (len : Nat)
    (h32 : 32 < len) (hlen : len ≤ data.length) (hne : data ≠ []) :
    lcd_cmd reg data len
      = [BusEvent.csLow,
         BusEvent.transmit
           { cmd := 0x02, addr := reg % 256 * 256
           , payload := data.take 32, qio := false },
         BusEvent.csHigh]
    ∧ (data.take 32).length = 32
    ∧ (data.take 32).length = min len 32 := by
  refine ⟨?_, ?_, ?_⟩
  · unfold lcd_cmd
    rw [if_pos ⟨by omega, hne⟩,
      if_pos (show len > lcdCmdBufSize by rw [lcdCmdBufSize]; omega)]
    rfl
  · rw [List.length_take]
    omega
  · rw [List.length_take]
    omega

theorem cmd_overlong_truncated_w :
    (32 : Nat) < 33 ∧ (33 : Nat) ≤ (List.replicate 40 (7 : Nat)).length ∧
    (List.replicate 40 (7 : Nat)) ≠ [] ∧
    (lcd_cmd 0xA2 (List.replicate 40 7) 33
      = [BusEvent.csLow,
         BusEvent.transmit
           { cmd := 0x02, addr := 0xA2 % 256 * 256
           , payload := (List.replicate 40 (7 : Nat)).take 32, qio := false },
         BusEvent.csHigh]
    ∧ ((List.replicate 40 (7 : Nat)).take 32).length = 32
    ∧ ((List.replicate 40 (7 : Nat)).take 32).length = min 33 32) :=
  ⟨by decide, by decide, by decide,
    cmd_overlong_truncated 0xA2 (List.replicate 40 7) 33
      (by decide) (by decide) (by decide)⟩

/-- initCmds is the ordered register program of `lcd_init_display`
(espsquare.ino lines 188-316): every `lcd_cmd` call of the AXS15231B
type2 initialisation, in order, as (register, data bytes); entries with an
empty data list are the nullptr/len-0 calls.  Byte tables transcribed
verbatim from the source arrays. -/
def initCmds : List (Nat × List Nat) := [
  (0x28, []),
  (0x10, []),
  (0xBB, [0x00, 0x00, 0x00, 0x00, 0x00, 0x00, 0x5a, 0xa5]),
  (0xA0, [0x00, 0x30, 0x00, 0x02, 0x00, 0x00, 0x05, 0x3F, 0x30, 0x05, 0x3F, 0x3F, 0x00, 0x00, 0x00, 0x00, 0x00]),
  (0xA2, [0x30, 0x04, 0x14, 0x50, 0x80, 0x30, 0x85, 0x80, 0xB4, 0x28, 0xFF, 0xFF, 0xFF, 0x20, 0x50, 0x10, 0x02, 0x06, 0x20, 0xD0, 0xC0, 0x01, 0x12, 0xA0, 0x91, 0xC0, 0x20, 0x7F, 0xFF, 0x00, 0x06]),
  (0xD0, [0x80, 0xb4, 0x21, 0x24, 0x08, 0x05, 0x10, 0x01, 0xf2, 0x02, 0xc2, 0x02, 0x22, 0x22, 0xaa, 0x03, 0x10, 0x12, 0xc0, 0x10, 0x10, 0x40, 0x04, 0x00, 0x30, 0x10, 0x00, 0x03, 0x0d, 0x12]),
  (0xA3, [0xA0, 0x06, 0xAA, 0x00, 0x08, 0x02, 0x0A, 0x04, 0x04, 0x04, 0x04, 0x04, 0x04, 0x04, 0x04, 0x04, 0x04, 0x04, 0x04, 0x00, 0x55, 0x55]),
  (0xC1, [0x33, 0x04, 0x02, 0x02, 0x71, 0x05, 0x24, 0x55, 0x02, 0x00, 0x01, 0x01, 0x53, 0xff, 0xff, 0xff, 0x4f, 0x52, 0x00, 0x4f, 0x52, 0x00, 0x45, 0x3b, 0x0b, 0x04, 0x0d, 0x00, 0xff, 0x42]),
  (0xC4, [0x00, 0x24, 0x33, 0x80, 0x66, 0xea, 0x64, 0x32, 0xC8, 0x64, 0xC8, 0x32, 0x90, 0x90, 0x11, 0x06, 0xDC, 0xFA, 0x00, 0x00, 0x80, 0xFE, 0x10, 0x10, 0x00, 0x0A, 0x0A, 0x44, 0x50]),
  (0xC5, [0x18, 0x00, 0x00, 0x03, 0xFE, 0xe8, 0x3b, 0x20, 0x30, 0x10, 0x88, 0xde, 0x0d, 0x08, 0x0f, 0x0f, 0x01, 0xe8, 0x3b, 0x20, 0x10, 0x10, 0x00]),
  (0xC6, [0x05, 0x0A, 0x05, 0x0A, 0x00, 0xE0, 0x2E, 0x0B, 0x12, 0x22, 0x12, 0x22, 0x01, 0x03, 0x00, 0x02, 0x6A, 0x18, 0xC8, 0x22]),
  (0xC7, [0x50, 0x36, 0x28, 0x00, 0xa2, 0x80, 0x8f, 0x00, 0x80, 0xff, 0x07, 0x11, 0x9c, 0x6f, 0xff, 0x24, 0x0c, 0x0d, 0x0e, 0x0f]),
  (0xC9, [0x33, 0x44, 0x44, 0x01]),
  (0xCF, [0x2c, 0x1e, 0x88, 0x58, 0x13, 0x18, 0x56, 0x18, 0x1e, 0x68, 0xf7, 0x00, 0x66, 0x0d, 0x22, 0xc4, 0x0c, 0x77, 0x22, 0x44, 0xaa, 0x55, 0x04, 0x04, 0x12, 0xa0, 0x08]),
  (0xD5, [0x30, 0x30, 0x8a, 0x00, 0x44, 0x04, 0x4a, 0xe5, 0x02, 0x4a, 0xe5, 0x02, 0x04, 0xd9, 0x02, 0x47, 0x03, 0x03, 0x03, 0x03, 0x83, 0x00, 0x00, 0x00, 0x80, 0x52, 0x53, 0x50, 0x50, 0x00]),
  (0xD6, [0x10, 0x32, 0x54, 0x76, 0x98, 0xba, 0xdc, 0xfe, 0x34, 0x02, 0x01, 0x83, 0xff, 0x00, 0x20, 0x50, 0x00, 0x30, 0x03, 0x03, 0x50, 0x13, 0x00, 0x00, 0x00, 0x04, 0x50, 0x20, 0x01, 0x00]),
  (0xD7, [0x03, 0x01, 0x09, 0x0b, 0x0d, 0x0f, 0x1e, 0x1f, 0x18, 0x1d, 0x1f, 0x19, 0x30, 0x30, 0x04, 0x00, 0x20, 0x20, 0x1f]),
  (0xD8, [0x02, 0x00, 0x08, 0x0a, 0x0c, 0x0e, 0x1e, 0x1f, 0x18, 0x1d, 0x1f, 0x19]),
  (0xDF, [0x44, 0x33, 0x4b, 0x69, 0x00, 0x0a, 0x02, 0x90]),
  (0xE0, [0x1f, 0x20, 0x10, 0x17, 0x0d, 0x09, 0x12, 0x2a, 0x44, 0x25, 0x0c, 0x15, 0x13, 0x31, 0x36, 0x2f, 0x02]),
  (0xE1, [0x3f, 0x20, 0x10, 0x16, 0x0c, 0x08, 0x12, 0x29, 0x43, 0x25, 0x0c, 0x15, 0x13, 0x32, 0x36, 0x2f, 0x27]),
  (0xE2, [0x3B, 0x07, 0x12, 0x18, 0x0E, 0x0D, 0x17, 0x35, 0x44, 0x32, 0x0C, 0x14, 0x14, 0x36, 0x3A, 0x2F, 0x0D]),
  (0xE3, [0x37, 0x07, 0x12, 0x18, 0x0E, 0x0D, 0x17, 0x35, 0x44, 0x32, 0x0C, 0x14, 0x14, 0x36, 0x32, 0x2F, 0x0F]),
  (0xE4, [0x3B, 0x07, 0x12, 0x18, 0x0E, 0x0D, 0x17, 0x39, 0x44, 0x2E, 0x0C, 0x14, 0x14, 0x36, 0x3A, 0x2F, 0x0D]),
  (0xE5, [0x37, 0x07, 0x12, 0x18, 0x0E, 0x0D, 0x17, 0x39, 0x44, 0x2E, 0x0C, 0x14, 0x14, 0x36, 0x3A, 0x2F, 0x0F]),
  (0xBB, [0x00, 0x00, 0x00, 0x00, 0x00, 0x00, 0x00, 0x00]),
  (0x20, []),
  (0x3A, [0x55]),
  (0x11, []),
  (0x29, []),
  (0x36, [0x60])
]
/-- initEvents is the bus-event trace of the command phase of
`lcd_init_display`: each entry of `initCmds` dispatched through `lcd_cmd`
with its own length, in order. -/
def initEvents : List BusEvent :=
  (initCmds.map fun c => lcd_cmd c.1 c.2 c.2.length).flatten

/-- ControllerState holds the panel-visible configuration fields the
initialisation sequence establishes.  Modelled from the spec: the source
keeps no host-side copy of this state; the spec's Controller State is
{initialized, rotation, color-depth, current window}, realised here through
the standard command set (0x10/0x11 sleep, 0x28/0x29 display, 0x20/0x21
inversion, 0x36 MADCTL, 0x3A COLMOD). -/
structure ControllerState where
  sleeping : Bool
  displayOn : Bool
  inverted : Bool
  madctl : Nat
  colmod : Nat
deriving Repr, DecidableEq

/-- applyCmd updates the controller state with one register command.
Modelled from the spec: the reaction of the AXS15231B to the standard
commands the init sequence uses; proprietary register programs leave the
modelled fields unchanged. -/
def applyCmd (s : ControllerState) (c : Nat × List Nat) : ControllerState :=
  if c.1 = 0x10 then { s with sleeping := true }
  else if c.1 = 0x11 then { s with sleeping := false }
  else if c.1 = 0x28 then { s with displayOn := false }
  else if c.1 = 0x29 then { s with displayOn := true }
  else if c.1 = 0x20 then { s with inverted := false }
  else if c.1 = 0x21 then { s with inverted := true }
  else if c.1 = 0x36 then { s with madctl := c.2.headD s.madctl }
  else if c.1 = 0x3A then { s with colmod := c.2.headD s.colmod }
  else s

/-- initialized is the spec's terminal predicate for the sequencer: the panel
is out of sleep and the display is on. -/
def ControllerState.initialized (s : ControllerState) : Bool :=
  s.displayOn && !s.sleeping

/-- runInit models one run of `lcd_init_display` over a controller state: it
replays the fixed register program `initCmds` (which depends on no prior
state or input) and returns the new controller state together with the
register program that was sent. -/
def runInit (s : ControllerState) : ControllerState × List (Nat × List Nat) :=
  (initCmds.foldl applyCmd s, initCmds)

/-- C4 counterexample: the initialisation sequencer does not split its
largest table: the 31-byte 0xA2 register program is dispatched in exactly one
`lcd_cmd` call carrying all 31 bytes (31 fits the 32-byte staging buffer), so
no splitting across multiple calls occurs for it. -/
theorem init_a2_single_call :
    ((initCmds.filter fun c => c.1 = 0xA2).map fun c => c.2.length) = [31]
    ∧ (31 : Nat) ≤ lcdCmdBufSize := by
  decide

/-- C4 amended: every data length the sequencer passes to `lcd_cmd` is at
most the 32-byte command staging capacity (the largest, the 0xA2 table, is 31
bytes), so every table — including the largest — is sent in a single call and
the `lcd_cmd` length cap never truncates a sequencer table. -/
theorem init_lengths_within_cap :
    (initCmds.all fun c => c.2.length ≤ lcdCmdBufSize) = true := by
  decide

/-- C7: running the initialisation twice in a row from any prior controller
state sends byte-identical register programs on both runs (the program is a
fixed table, independent of state and input), and both runs leave the
controller initialized (sleep-out and display-on). -/
theorem init_deterministic (s : ControllerState) :
    (runInit s).2 = (runInit (runInit s).1).2
    ∧ ((runInit s).1).initialized = true
    ∧ ((runInit (runInit s).1).1).initialized = true := by
  refine ⟨rfl, ?_, ?_⟩ <;> rfl

/-- lcd_spi_init models the success of `lcd_spi_init()` (espsquare.ino lines
155-185) as a function of the two driver results: it returns false as soon as
`spi_bus_initialize` or `spi_bus_add_device` returns a nonzero `esp_err_t`,
and true only when both return ESP_OK (0). -/
def lcd_spi_init (rBusInit rAddDev : Int) : Bool :=
  if rBusInit ≠ 0 then false
  else if rAddDev ≠ 0 then false
  else true

/-- rgb models the RGB565 helper `rgb(r, g, b)` (espsquare.ino lines
319-324) on uint8 inputs. -/
def rgb (r g b : Nat) : Nat :=
  ((r % 256) &&& 0xF8) <<< 8 ||| ((g % 256) &&& 0xFC) <<< 3 ||| ((b % 256) >>> 3)

/-- SetupResult is the outcome of `setup()`: either the sketch halts forever
in the fatal-error loop, or it proceeds and issues the given display trace. -/
inductive SetupResult where
  | halted : SetupResult
  | running : List BusEvent → SetupResult
deriving Repr, DecidableEq

/-- displayEventsOf extracts the display transactions a setup outcome
issues; a halted sketch issues none. -/
def displayEventsOf : SetupResult → List BusEvent
  | SetupResult.halted => []
  | SetupResult.running es => es

/-- setupModel models `setup()` (espsquare.ino lines 439-469) from the bus
initialisation on: when `lcd_spi_init` fails the sketch prints a fatal
message and enters `while (true) delay(1000);`, never reaching
`lcd_init_display` or any draw (outcome `halted`); when it succeeds the
sketch initialises the controller, flashes red, green and blue, and shows
pattern 0 (solid red `rgb 220 30 30`). -/
def setupModel (rBusInit rAddDev : Int) : SetupResult :=
  if lcd_spi_init rBusInit rAddDev then
    SetupResult.running
      (initEvents ++ lcd_fill 0xF800 ++ lcd_fill 0x07E0 ++ lcd_fill 0x001F ++
        lcd_fill (rgb 220 30 30))
  else SetupResult.halted

/-- C8: after a fatal bus-initialisation failure (either driver call
returning an error, so `lcd_spi_init` returns false), the sketch halts
permanently and no display transaction is ever issued. -/
theorem spi_init_failure_halts (rBusInit rAddDev : Int)
    (hfail : lcd_spi_init rBusInit rAddDev = false) :
    setupModel rBusInit rAddDev = SetupResult.halted
    ∧ displayEventsOf (setupModel rBusInit rAddDev) = [] := by
  have h : setupModel rBusInit rAddDev = SetupResult.halted := by
    unfold setupModel
    rw [hfail]
    rfl
  exact ⟨h, by rw [h]; rfl⟩

theorem spi_init_failure_halts_w :
    lcd_spi_init 257 0 = false ∧
    (setupModel 257 0 = SetupResult.halted
      ∧ displayEventsOf (setupModel 257 0) = []) :=
  ⟨by decide, spi_init_failure_halts 257 0 (by decide)⟩
